import Mathlib

/-!
Verification of `dendrocat/utils.py` (source-catalog matching and merge
utilities) against its natural-language specification.

Shallow embedding conventions:
* Python/numpy floats are modelled as rationals (`ℚ`).  The code only ever
  compares distances (`dist <= 1e-5`) and sorts by them; since `Real.sqrt` is
  monotone on nonnegative inputs, we work with squared Euclidean distances and
  the squared threshold `(1/100000)^2` — every comparison and sort order is
  preserved exactly.
* An astropy table is a list of rows.  The columns that both input catalogs
  are required to carry (`_idx`, `_index`, `x_cen`, `y_cen`, `major_fwhm`,
  `minor_fwhm`, `position_angle`, `rejected`, `_name`) are plain record
  fields (vstack leaves them unmasked); all remaining columns — the
  frequency-tagged flux/error columns which may be present in one operand and
  masked in the other — are carried as `extra : List (Option ℚ)`, one shared
  schema position per column, `none` meaning a masked cell.
* `commonbeam` delegates to `radio_beam.Beams.common_beam`, an external
  library outside this repository; the merge engine is therefore
  parameterised by an arbitrary combiner `cb` for the shape columns.
* Fallible steps (out-of-range `table[j]`, `np.where(...)[0][0]` on an empty
  result) return `Except MatchErr`.
* `Table.sort` (numpy) is modelled with `List.insertionSort`; numpy's
  quicksort is unstable, so tie order among equal keys is unspecified there,
  but every theorem below is insensitive to tie order and every concrete
  input used is tie-free.  Sorting a `MaskedColumn` places masked entries last (numpy
  `endwith=True`), which is modelled directly in `selectPartner`: only the 10
  window entries ever hold an unmasked distance, so the head of the
  distance-sorted table is the distance-minimum over the window.
-/

/-- A row of the stacked catalog (see module docstring for the split between
record fields and `extra`). `rejected` is kept as an integer because the code
tests `rejected == 1` (skip set) and `rejected == 0` (candidates) separately. -/
structure Row where
  rowIdx : Int
  rowIndex : Int
  x_cen : ℚ
  y_cen : ℚ
  major_fwhm : ℚ
  minor_fwhm : ℚ
  position_angle : ℚ
  rejected : Int
  rowName : String
  extra : List (Option ℚ)
deriving DecidableEq, Repr

/-- The combiner standing in for `commonbeam` (external `radio_beam` call):
takes major/minor/pa of the match row and of the test row, returns the new
(major, minor, pa). -/
abbrev CB := ℚ → ℚ → ℚ → ℚ → ℚ → ℚ → ℚ × ℚ × ℚ

/-- One row of the `delta_p` working table of `_matcher`: the originating
stack row together with `|dx|`, `|dy|` relative to the test row.  (The code
keeps only the `_idx`/`_index`/`x_cen`/`y_cen` columns; carrying the whole
row is observation-equivalent since selection reads only `dx`, `dy` and
`_index`.) -/
structure Cand where
  row : Row
  dx : ℚ
  dy : ℚ
deriving DecidableEq, Repr

/-- Squared Euclidean distance of a candidate from the test row
(`delta_p[j]['x_cen']**2 + delta_p[j]['y_cen']**2`). -/
def d2 (c : Cand) : ℚ := c.dx ^ 2 + c.dy ^ 2

/-- The squared matching threshold; the code uses `threshold = 1e-5` on the
square-rooted distance. -/
def thresholdSq : ℚ := (1 / 100000) ^ 2

/-- Errors the merge engine can raise (python `IndexError`). -/
inductive MatchErr where
  | indexOutOfBounds
deriving DecidableEq, Repr

/-- `delta_p` construction of `_matcher` (lines 159–162): copy the
non-rejected rows, drop those sharing the test row's `_index`, and record
absolute coordinate deltas. -/
def candidatesFor (stack : List Row) (test : Row) : List Cand :=
  ((stack.filter (fun r => r.rejected == 0)).filter
      (fun r => r.rowIndex != test.rowIndex)).map
    (fun r => { row := r, dx := |r.x_cen - test.x_cen|, dy := |r.y_cen - test.y_cen| })

/-- Sort key for `delta_p.sort('x_cen')`: `|dx|` ascending. -/
def dxLe (a b : Cand) : Prop := a.dx ≤ b.dx

instance : DecidableRel dxLe := fun a b => inferInstanceAs (Decidable (a.dx ≤ b.dx))

instance : IsTotal Cand dxLe := ⟨fun a b => le_total a.dx b.dx⟩

instance : IsTrans Cand dxLe := ⟨fun _ _ _ hab hbc => le_trans hab hbc⟩

/-- Sort key for `delta_p.sort('dist')`: Euclidean distance ascending
(squared distances compare identically). -/
def distLe (a b : Cand) : Prop := d2 a ≤ d2 b

instance : DecidableRel distLe := fun a b => inferInstanceAs (Decidable (d2 a ≤ d2 b))

instance : IsTotal Cand distLe := ⟨fun a b => le_total (d2 a) (d2 b)⟩

instance : IsTrans Cand distLe := ⟨fun _ _ _ hab hbc => le_trans hab hbc⟩

/-- `delta_p.sort('x_cen')` — sort candidates by `|dx|` ascending. -/
def sortCands (cs : List Cand) : List Cand :=
  List.insertionSort dxLe cs

/-- Lines 165–181 of `_matcher`: compute distances for the first 10
`|dx|`-sorted candidates (an out-of-range access raises `IndexError` when
fewer than 10 exist), flag a match when some window distance is within the
threshold, then sort by distance (masked — i.e. beyond-window — entries
last) and take the head as the merge partner. -/
def selectPartner (cs : List Cand) : Except MatchErr (Option Cand) :=
  let s := sortCands cs
  if s.length < 10 then .error .indexOutOfBounds
  else
    let w := s.take 10
    if w.any (fun c => decide (d2 c ≤ thresholdSq)) then
      .ok ((List.insertionSort distLe w).head?)
    else
      .ok none

/-- The column-wise fill loop (lines 207–210): a masked cell of the
surviving row receives the partner's cell for that column; a present cell
is kept. -/
def fillExtras (t p : List (Option ℚ)) : List (Option ℚ) :=
  t.zipWith (fun tv pv => match tv with | none => pv | some v => some v) p

/-- Lines 186–210 of `_matcher`: the write-back applied at stack position
`i` after the partner row `m` (the saved `match` deepcopy) has been
removed.  `teststar = stack[i]` is a LIVE astropy Row view, so after
`stack.remove_row` every read of `teststar` on lines 186–197 and every
write on lines 199–210 goes through the row NOW sitting at position `i` —
which is the original test row exactly when the partner was removed at a
position above `i`, and the row that slid into position `i` otherwise.
`rowi` is that post-removal row.  Centers are per-axis averages of `m` and
`rowi`, shape columns come from the combiner on their shapes, and masked
cells of `rowi` are filled from the partner. -/
def applyMerge (cb : CB) (m rowi : Row) : Row :=
  { rowi with
    x_cen := (m.x_cen + rowi.x_cen) / 2
    y_cen := (m.y_cen + rowi.y_cen) / 2
    major_fwhm := (cb m.major_fwhm m.minor_fwhm m.position_angle
                      rowi.major_fwhm rowi.minor_fwhm rowi.position_angle).1
    minor_fwhm := (cb m.major_fwhm m.minor_fwhm m.position_angle
                      rowi.major_fwhm rowi.minor_fwhm rowi.position_angle).2.1
    position_angle := (cb m.major_fwhm m.minor_fwhm m.position_angle
                          rowi.major_fwhm rowi.minor_fwhm rowi.position_angle).2.2
    extra := fillExtras rowi.extra m.extra }

/-- Result of the scanning loop, instrumented with the list of positions
used as test rows (`visited`) and the loop counter at exit (`finalI`). -/
structure LoopOut where
  rows : List Row
  visited : List Nat
  finalI : Nat
deriving DecidableEq, Repr

/-- `rejected = np.where(stack['rejected'] == 1)[0]` (line 142): the
positions, counted from `n`, of rows flagged rejected. -/
def rejectedPositionsFrom (n : Nat) : List Row → List Nat
  | [] => []
  | r :: rs =>
    if r.rejected == 1 then n :: rejectedPositionsFrom (n + 1) rs
    else rejectedPositionsFrom (n + 1) rs

def rejectedPositions (stack : List Row) : List Nat :=
  rejectedPositionsFrom 0 stack

/-- `stack['_index'] = range(len(stack))`, starting from `n`. -/
def assignIdxFrom (n : Int) : List Row → List Row
  | [] => []
  | r :: rs => { r with rowIndex := n } :: assignIdxFrom (n + 1) rs

/-- Assign a dense `_index` column `0 .. N-1`. -/
def assignIdx (rows : List Row) : List Row :=
  assignIdxFrom 0 rows

/-- The `while True` scan of `_matcher` (lines 148–213).  The break test
`i == len(stack) - 1` is re-evaluated on the *current* stack each
iteration, exactly as in the source (computed over `Int`, since Python's
`len(stack) - 1` can be `-1`).  `rej` is the skip set captured once before
the loop.  The fuel argument only makes the recursion structural; the
caller passes enough fuel that it never runs out (the counter strictly
increases and the stack never grows, so the loop ends — by break or
`IndexError` — after at most `len(stack) + 1` iterations). -/
def matcherLoop (cb : CB) (rej : List Nat) :
    Nat → Nat → List Row → List Nat → Except MatchErr LoopOut
  | 0, _, _, _ => .error .indexOutOfBounds
  | fuel + 1, i, stack, visited =>
    if (i : Int) = (stack.length : Int) - 1 then
      .ok { rows := stack, visited := visited, finalI := i }
    else if i ∈ rej then
      matcherLoop cb rej fuel (i + 1) stack visited
    else
      match stack[i]? with
      | none => .error .indexOutOfBounds
      | some test =>
        match selectPartner (candidatesFor stack test) with
        | .error e => .error e
        | .ok none => matcherLoop cb rej fuel (i + 1) stack (visited ++ [i])
        | .ok (some p) =>
          match stack.findIdx? (fun r => r.rowIndex == p.row.rowIndex) with
          | none => .error .indexOutOfBounds
          | some mi =>
            match stack[mi]? with
            | none => .error .indexOutOfBounds
            | some matchRow =>
              match (stack.eraseIdx mi)[i]? with
              | none => .error .indexOutOfBounds
              | some rowi =>
                matcherLoop cb rej fuel (i + 1)
                  ((stack.eraseIdx mi).set i (applyMerge cb matchRow rowi))
                  (visited ++ [i])

/-- `_matcher` on an already-vstacked table: add the `_index` column, record
the rejected positions, and run the scan.  (The final `detected`-column
fill-value assignment changes no cell values or masks and is not modelled.) -/
def matcherStack (cb : CB) (stack0 : List Row) : Except MatchErr LoopOut :=
  matcherLoop cb (rejectedPositions (assignIdx stack0))
    ((assignIdx stack0).length + 2) 0 (assignIdx stack0) []

/-- Full `_matcher` over two catalogs sharing the union schema: vstack,
scan/merge, then reassign a dense `_index` (line 220). -/
def matcher (cb : CB) (catA catB : List Row) : Except MatchErr (List Row) :=
  (matcherStack cb (catA ++ catB)).map (fun out => assignIdx out.rows)

/-- Number of rows flagged rejected. -/
def countRej (rows : List Row) : Nat :=
  (rows.filter (fun r => r.rejected == 1)).length

/-- Number of non-rejected rows (`rejected == 0`, the candidate filter). -/
def countNonRej (rows : List Row) : Nat :=
  (rows.filter (fun r => r.rejected == 0)).length

deriving instance DecidableEq for Except

/-- A fixed combiner used for concrete runs (any `CB` works for the
theorems; this one is simple and injective enough to be interesting). -/
def cbEx : CB := fun a b c d e f => (a + d, b + e, c + f)

/-- Concrete row builder for test inputs. -/
def mkRow (idx : Int) (x y : ℚ) (rej : Int) : Row :=
  { rowIdx := idx, rowIndex := idx, x_cen := x, y_cen := y,
    major_fwhm := 1, minor_fwhm := 1, position_angle := 0,
    rejected := rej, rowName := "s", extra := [] }

/-- Partner selection picks a member of the candidate list. -/
theorem selectPartner_mem {cs : List Cand} {p : Cand}
    (h : selectPartner cs = .ok (some p)) : p ∈ cs := by
  unfold selectPartner at h
  by_cases hlen : (sortCands cs).length < 10
  · simp [hlen] at h
  · simp only [if_neg hlen] at h
    by_cases hany :
        ((sortCands cs).take 10).any (fun c => decide (d2 c ≤ thresholdSq)) = true
    · rw [if_pos hany] at h
      have hh : (List.insertionSort distLe ((sortCands cs).take 10)).head? = some p :=
        Except.ok.inj h
      have hp := List.mem_of_mem_head?
        (l := List.insertionSort distLe ((sortCands cs).take 10))
        (a := p) (by rw [hh]; rfl)
      have hp2 : p ∈ (sortCands cs).take 10 := (List.mem_insertionSort distLe).mp hp
      have hp3 : p ∈ sortCands cs := List.mem_of_mem_take hp2
      exact (List.mem_insertionSort dxLe).mp hp3
    · rw [if_neg hany] at h
      exact absurd h (by simp)

/-- Candidate rows come from the stack, are non-rejected, and never share
the test row's `_index` (lines 159–160). -/
theorem mem_candidatesFor {stack : List Row} {test : Row} {c : Cand}
    (h : c ∈ candidatesFor stack test) :
    c.row ∈ stack ∧ c.row.rejected = 0 ∧ c.row.rowIndex ≠ test.rowIndex := by
  unfold candidatesFor at h
  rcases List.mem_map.mp h with ⟨r, hr, rfl⟩
  rcases List.mem_filter.mp hr with ⟨hr1, hne⟩
  rcases List.mem_filter.mp hr1 with ⟨hmem, hrej⟩
  refine ⟨hmem, ?_, ?_⟩
  · simpa using hrej
  · simpa using hne

/-- C9: during one pairwise merge a test row is never selected as its own
merge partner — the candidate list is built only from non-rejected rows and
excludes every row whose `_index` equals the test row's `_index`, so any
chosen partner is distinct from the test row. -/
theorem partner_never_self {stack : List Row} {test : Row} {p : Cand}
    (h : selectPartner (candidatesFor stack test) = .ok (some p)) :
    p.row.rowIndex ≠ test.rowIndex ∧ p.row.rejected = 0 ∧ p.row ∈ stack := by
  have hm := mem_candidatesFor (selectPartner_mem h)
  exact ⟨hm.2.2, hm.2.1, hm.1⟩

/-- Test row and 12 far-apart companions, rows 0 and 1 within threshold
(used as a concrete run with one merge). -/
def c2stack : List Row :=
  [mkRow 0 0 0 0, mkRow 1 0 (1/1000000) 0,
   mkRow 2 20 0 0, mkRow 3 30 0 0, mkRow 4 40 0 0, mkRow 5 50 0 0,
   mkRow 6 60 0 0, mkRow 7 70 0 0, mkRow 8 80 0 0, mkRow 9 90 0 0,
   mkRow 10 100 0 0, mkRow 11 110 0 0, mkRow 12 120 0 0]

/-- The partner chosen for row 0 of `c2stack`. -/
def c9p : Cand := { row := mkRow 1 0 (1/1000000) 0, dx := 0, dy := 1/1000000 }

theorem partner_never_self_witness :
    c9p.row.rowIndex ≠ (mkRow 0 0 0 0).rowIndex ∧ c9p.row.rejected = 0 ∧
      c9p.row ∈ c2stack :=
  @partner_never_self c2stack (mkRow 0 0 0 0) c9p (by decide!)

/-- Test stack for C1: eleven candidates; candidate `_index` 1 sits in the
`|dx|` window and matches, candidates 2–10 pad the window with large `|dy|`,
and candidate 11 is *outside* the window yet strictly closer in Euclidean
distance than every window candidate. -/
def c1test : Row := mkRow 0 0 0 0

def c1stack : List Row :=
  [c1test, mkRow 1 0 (5/1000000) 0,
   mkRow 2 (1/100000000) 1 0, mkRow 3 (2/100000000) 1 0, mkRow 4 (3/100000000) 1 0,
   mkRow 5 (4/100000000) 1 0, mkRow 6 (5/100000000) 1 0, mkRow 7 (6/100000000) 1 0,
   mkRow 8 (7/100000000) 1 0, mkRow 9 (8/100000000) 1 0, mkRow 10 (9/100000000) 1 0,
   mkRow 11 (1/1000000) 0 0]

def c1near : Cand := { row := mkRow 1 0 (5/1000000) 0, dx := 0, dy := 5/1000000 }

def c1far : Cand := { row := mkRow 11 (1/1000000) 0 0, dx := 1/1000000, dy := 0 }

/-- C1 counterexample: with a matching candidate in the window, the partner
actually selected (`c1near`, distance `5e-6`) is NOT the candidate of
smallest Euclidean distance among all non-rejected candidates — `c1far`
(distance `1e-6`) is a candidate, strictly closer, but outside the 10-entry
`|dx|` window, because beyond-window distances stay masked and sort last. -/
theorem partner_not_global_min :
    selectPartner (candidatesFor c1stack c1test) = .ok (some c1near) ∧
    c1far ∈ candidatesFor c1stack c1test ∧ d2 c1far < d2 c1near := by decide!

/-- C1 amended: when at least one of the 10 window candidates matches, the
selected partner is the candidate of smallest Euclidean distance among the
10 candidates of the `|dx|`-sorted window (not among all candidates). -/
theorem partner_min_over_window {cs : List Cand} {p : Cand}
    (h : selectPartner cs = .ok (some p)) :
    p ∈ (sortCands cs).take 10 ∧ ∀ c ∈ (sortCands cs).take 10, d2 p ≤ d2 c := by
  unfold selectPartner at h
  by_cases hlen : (sortCands cs).length < 10
  · simp [hlen] at h
  · simp only [if_neg hlen] at h
    by_cases hany :
        ((sortCands cs).take 10).any (fun c => decide (d2 c ≤ thresholdSq)) = true
    · rw [if_pos hany] at h
      have hh : (List.insertionSort distLe ((sortCands cs).take 10)).head? = some p :=
        Except.ok.inj h
      have hsorted : (List.insertionSort distLe ((sortCands cs).take 10)).Pairwise distLe :=
        List.sorted_insertionSort distLe ((sortCands cs).take 10)
      rcases hl : List.insertionSort distLe ((sortCands cs).take 10) with _ | ⟨q, rest⟩
      · rw [hl] at hh; exact absurd hh (by simp)
      · rw [hl] at hh
        have hq : q = p := by simpa using hh
        subst hq
        rw [hl] at hsorted
        have hmin : ∀ c ∈ rest, d2 q ≤ d2 c := fun c hc =>
          (List.pairwise_cons.mp hsorted).1 c hc
        constructor
        · have : q ∈ List.insertionSort distLe ((sortCands cs).take 10) := by
            rw [hl]; exact List.mem_cons_self q rest
          exact (List.mem_insertionSort distLe).mp this
        · intro c hc
          have : c ∈ List.insertionSort distLe ((sortCands cs).take 10) :=
            (List.mem_insertionSort distLe).mpr hc
          rw [hl] at this
          rcases List.mem_cons.mp this with hq | hrest
          · rw [hq]
          · exact hmin c hrest
    · rw [if_neg hany] at h
      exact absurd h (by simp)

theorem partner_min_over_window_witness :
    c1near ∈ (sortCands (candidatesFor c1stack c1test)).take 10 ∧
    ∀ c ∈ (sortCands (candidatesFor c1stack c1test)).take 10, d2 c1near ≤ d2 c :=
  @partner_min_over_window (candidatesFor c1stack c1test) c1near (by decide!)

/-- The scan's exit value: whenever the loop finishes normally its counter
equals the CURRENT stack length minus one (re-evaluated after removals),
not the initial length minus one. -/
theorem matcherLoop_finalI (cb : CB) (rej : List Nat) :
    ∀ fuel i stack visited out,
      matcherLoop cb rej fuel i stack visited = .ok out →
      (out.finalI : Int) = (out.rows.length : Int) - 1 := by
  intro fuel
  induction fuel with
  | zero =>
    intro i stack visited out h
    exact absurd h (by simp [matcherLoop])
  | succ n ih =>
    intro i stack visited out h
    rw [matcherLoop] at h
    split at h
    · rename_i hbr
      cases h
      simpa using hbr
    · split at h
      · exact ih _ _ _ _ h
      · split at h
        · exact absurd h (by simp)
        · split at h
          · exact absurd h (by simp)
          · exact ih _ _ _ _ h
          · split at h
            · exact absurd h (by simp)
            · split at h
              · exact absurd h (by simp)
              · split at h
                · exact absurd h (by simp)
                · exact ih _ _ _ _ h

/-- C2 counterexample: on a 13-row stack with no rejected rows where rows 0
and 1 merge, the positions visited as test rows are `0..10` only.  Were the
scan bound the value `len(stack)-1 = 12` captured at the start (as the
claim states), position 11 would also be scanned (`11 ≤ 13 - 2` and no row
is rejected); it is not, because the bound is re-evaluated against the
shrunken stack. -/
theorem scan_bound_not_initial :
    (matcherStack cbEx c2stack).map LoopOut.visited = .ok (List.range 11) ∧
    c2stack.length = 13 ∧ rejectedPositions (assignIdx c2stack) = [] ∧
    (11 : Nat) ∉ List.range 11 ∧ 11 ≤ c2stack.length - 2 := by decide!

/-- C2 amended: the outer scan's stopping bound `len(stack) - 1` is
re-evaluated each iteration on the current (possibly shrunken) stack: every
normally-completing run stops with its counter equal to the FINAL stack
length minus one, so merges shorten the scan. -/
theorem scan_stops_at_current_end (cb : CB) (stack0 : List Row) (out : LoopOut)
    (h : matcherStack cb stack0 = .ok out) :
    (out.finalI : Int) = (out.rows.length : Int) - 1 :=
  matcherLoop_finalI cb (rejectedPositions (assignIdx stack0))
    ((assignIdx stack0).length + 2) 0 (assignIdx stack0) [] out h

/-- Twelve far-apart non-rejected rows (first operand of a merge with no
matching pairs). -/
def wStackA : List Row :=
  [mkRow 0 0 0 0, mkRow 1 10 0 0, mkRow 2 20 0 0, mkRow 3 30 0 0,
   mkRow 4 40 0 0, mkRow 5 50 0 0, mkRow 6 60 0 0, mkRow 7 70 0 0,
   mkRow 8 80 0 0, mkRow 9 90 0 0, mkRow 10 100 0 0, mkRow 11 110 0 0]

/-- Second operand: a single rejected row, far from everything. -/
def wStackB : List Row := [mkRow 50 1000 0 1]

/-- The (merge-free) outcome of scanning `wStackA ++ wStackB`. -/
def wOut : LoopOut :=
  { rows := assignIdx (wStackA ++ wStackB), visited := List.range 12, finalI := 12 }

theorem scan_stops_at_current_end_witness :
    (wOut.finalI : Int) = (wOut.rows.length : Int) - 1 :=
  scan_stops_at_current_end cbEx (wStackA ++ wStackB) wOut (by decide!)

theorem countRej_cons (a : Row) (t : List Row) :
    countRej (a :: t) = (if a.rejected == 1 then 1 else 0) + countRej t := by
  unfold countRej
  rw [List.filter_cons]
  by_cases h : (a.rejected == 1) <;> simp [h, Nat.add_comm]

theorem countNonRej_cons (a : Row) (t : List Row) :
    countNonRej (a :: t) = (if a.rejected == 0 then 1 else 0) + countNonRej t := by
  unfold countNonRej
  rw [List.filter_cons]
  by_cases h : (a.rejected == 0) <;> simp [h, Nat.add_comm]

theorem map_eraseIdx_comm {α β : Type} (f : α → β) :
    ∀ (l : List α) (i : Nat), (l.eraseIdx i).map f = (l.map f).eraseIdx i := by
  intro l
  induction l with
  | nil => intro i; simp [List.eraseIdx]
  | cons a t ih =>
    intro i
    cases i with
    | zero => simp [List.eraseIdx]
    | succ n => simp [List.eraseIdx, ih]

theorem set_self_of_getElem {α : Type} :
    ∀ (l : List α) (i : Nat) (x : α), l[i]? = some x → l.set i x = l := by
  intro l
  induction l with
  | nil => intro i x h; simp at h
  | cons a t ih =>
    intro i x h
    cases i with
    | zero =>
      simp only [List.getElem?_cons_zero, Option.some.injEq] at h
      simp [List.set, h]
    | succ n =>
      simp only [List.getElem?_cons_succ] at h
      simp [List.set, ih n x h]

theorem countRej_eraseIdx :
    ∀ (l : List Row) (i : Nat) (r : Row),
      l[i]? = some r → r.rejected ≠ 1 → countRej (l.eraseIdx i) = countRej l := by
  intro l
  induction l with
  | nil => intro i r h; simp at h
  | cons a t ih =>
    intro i r h hr
    cases i with
    | zero =>
      simp only [List.getElem?_cons_zero, Option.some.injEq] at h
      subst h
      rw [List.eraseIdx, countRej_cons]
      simp [beq_iff_eq, hr]
    | succ n =>
      simp only [List.getElem?_cons_succ] at h
      rw [List.eraseIdx, countRej_cons, countRej_cons, ih n r h hr]

theorem countRej_set :
    ∀ (l : List Row) (i : Nat) (x y : Row),
      l[i]? = some y → x.rejected = y.rejected →
      countRej (l.set i x) = countRej l := by
  intro l
  induction l with
  | nil => intro i x y h; simp at h
  | cons a t ih =>
    intro i x y h hxy
    cases i with
    | zero =>
      simp only [List.getElem?_cons_zero, Option.some.injEq] at h
      subst h
      rw [List.set, countRej_cons, countRej_cons, hxy]
    | succ n =>
      simp only [List.getElem?_cons_succ] at h
      rw [List.set, countRej_cons, countRej_cons, ih n x y h hxy]

theorem countRej_assignIdxFrom :
    ∀ (l : List Row) (n : Int), countRej (assignIdxFrom n l) = countRej l := by
  intro l
  induction l with
  | nil => intro n; rfl
  | cons a t ih =>
    intro n
    rw [assignIdxFrom, countRej_cons, countRej_cons, ih (n + 1)]

theorem countNonRej_assignIdxFrom :
    ∀ (l : List Row) (n : Int), countNonRej (assignIdxFrom n l) = countNonRej l := by
  intro l
  induction l with
  | nil => intro n; rfl
  | cons a t ih =>
    intro n
    rw [assignIdxFrom, countNonRej_cons, countNonRej_cons, ih (n + 1)]

theorem assignIdxFrom_index_ge :
    ∀ (l : List Row) (n : Int) (x : Int),
      x ∈ (assignIdxFrom n l).map Row.rowIndex → n ≤ x := by
  intro l
  induction l with
  | nil => intro n x h; simp [assignIdxFrom] at h
  | cons a t ih =>
    intro n x h
    rw [assignIdxFrom] at h
    rcases List.mem_cons.mp h with h0 | h1
    · rw [h0]
    · exact le_trans (by omega) (ih (n + 1) x h1)

theorem assignIdxFrom_nodup :
    ∀ (l : List Row) (n : Int), ((assignIdxFrom n l).map Row.rowIndex).Nodup := by
  intro l
  induction l with
  | nil => intro n; simp [assignIdxFrom]
  | cons a t ih =>
    intro n
    rw [assignIdxFrom]
    refine List.nodup_cons.mpr ⟨fun hmem => ?_, ih (n + 1)⟩
    have h1 : (n + 1 : Int) ≤ n := assignIdxFrom_index_ge t (n + 1) _ hmem
    omega

/-- In a stack with pairwise-distinct `_index` values, the row found by
`np.where(stack['_index'] == delta_p[0]['_index'])` IS the selected partner
row — in particular it is non-rejected (so removing it never removes a
rejected row). -/
theorem erased_is_partner {stack : List Row} {test : Row} {p : Cand} {mi : Nat}
    {matchRow : Row}
    (hnd : (stack.map Row.rowIndex).Nodup)
    (hsp : selectPartner (candidatesFor stack test) = .ok (some p))
    (hfind : stack.findIdx? (fun r => r.rowIndex == p.row.rowIndex) = some mi)
    (hmr : stack[mi]? = some matchRow) :
    matchRow = p.row := by
  obtain ⟨hmi, hfi⟩ := List.findIdx?_eq_some_iff_findIdx_eq.mp hfind
  obtain ⟨hmi', hm2⟩ := List.getElem?_eq_some.mp hmr
  have hlt : List.findIdx (fun r => r.rowIndex == p.row.rowIndex) stack < stack.length := by
    rw [hfi]; exact hmi
  have hpred := @List.findIdx_getElem Row
    (fun r => r.rowIndex == p.row.rowIndex) stack hlt
  simp_rw [hfi] at hpred
  have hidx : matchRow.rowIndex = p.row.rowIndex := by
    rw [← hm2]
    exact beq_iff_eq.mp hpred
  have hmem := (mem_candidatesFor (selectPartner_mem hsp)).1
  obtain ⟨j, hj, hjeq⟩ := List.mem_iff_getElem.mp hmem
  have hmapj : j < (stack.map Row.rowIndex).length := by simpa using hj
  have hmapmi : mi < (stack.map Row.rowIndex).length := by simpa using hmi
  have heqmap : (stack.map Row.rowIndex)[mi] = (stack.map Row.rowIndex)[j] := by
    rw [List.getElem_map, List.getElem_map, hm2, hjeq, hidx]
  have hji : mi = j := (hnd.getElem_inj_iff).mp heqmap
  subst hji
  rw [← hm2]
  exact hjeq

/-- Across one loop iteration and onwards, the number of rejected rows in
the stack never changes: removals only ever delete a non-rejected partner
row, and the write-back preserves the `rejected` field of the written row. -/
theorem matcherLoop_countRej (cb : CB) (rej : List Nat) :
    ∀ fuel i stack visited out,
      (stack.map Row.rowIndex).Nodup →
      matcherLoop cb rej fuel i stack visited = .ok out →
      countRej out.rows = countRej stack := by
  intro fuel
  induction fuel with
  | zero =>
    intro i stack visited out hnd h
    exact absurd h (by simp [matcherLoop])
  | succ n ih =>
    intro i stack visited out hnd h
    rw [matcherLoop] at h
    split at h
    · cases h; rfl
    · split at h
      · exact ih _ _ _ _ hnd h
      · split at h
        · exact absurd h (by simp)
        · split at h
          · exact absurd h (by simp)
          · exact ih _ _ _ _ hnd h
          · split at h
            · exact absurd h (by simp)
            · split at h
              · exact absurd h (by simp)
              · split at h
                · exact absurd h (by simp)
                · rename_i test hti pp p hsp oi mi hfind om matchRow hmr orowi rowi hrowi
                  have hmeq := erased_is_partner hnd hsp hfind hmr
                  have hrej0 : matchRow.rejected = 0 := by
                    rw [hmeq]
                    exact (mem_candidatesFor (selectPartner_mem hsp)).2.1
                  have hnd' : ((stack.eraseIdx mi).map Row.rowIndex).Nodup := by
                    rw [map_eraseIdx_comm]
                    exact List.Nodup.sublist (List.eraseIdx_sublist _ mi) hnd
                  have hndset :
                      (((stack.eraseIdx mi).set i
                        (applyMerge cb matchRow rowi)).map Row.rowIndex).Nodup := by
                    rw [List.map_set]
                    have hgi : ((stack.eraseIdx mi).map Row.rowIndex)[i]? =
                        some ((applyMerge cb matchRow rowi).rowIndex) := by
                      rw [List.getElem?_map, hrowi]; rfl
                    rw [set_self_of_getElem _ _ _ hgi]
                    exact hnd'
                  have hcr := ih _ _ _ _ hndset h
                  rw [hcr]
                  rw [countRej_set _ _ (applyMerge cb matchRow rowi) rowi hrowi rfl]
                  exact countRej_eraseIdx _ _ _ hmr (by rw [hrej0]; omega)

/-- C3: for every pair of input catalogs the merge output contains exactly
as many rows with `rejected == 1` as the two inputs combined — no rejected
row is ever removed from the stack, and no rejected row is ever selected as
a merge partner. -/
theorem rejected_rows_preserved (cb : CB) (catA catB : List Row) (out : List Row)
    (h : matcher cb catA catB = .ok out) :
    countRej out = countRej catA + countRej catB := by
  unfold matcher at h
  cases hms : matcherStack cb (catA ++ catB) with
  | error e => rw [hms] at h; exact absurd h (by simp [Except.map])
  | ok lo =>
    rw [hms] at h
    have hout : out = assignIdx lo.rows := by
      have := h.symm
      simpa [Except.map] using this
    subst hout
    unfold matcherStack at hms
    have hnd := assignIdxFrom_nodup (catA ++ catB) 0
    have hcr := matcherLoop_countRej cb (rejectedPositions (assignIdx (catA ++ catB)))
      ((assignIdx (catA ++ catB)).length + 2) 0 (assignIdx (catA ++ catB)) [] lo hnd hms
    calc countRej (assignIdx lo.rows) = countRej lo.rows := countRej_assignIdxFrom _ 0
      _ = countRej (assignIdx (catA ++ catB)) := hcr
      _ = countRej (catA ++ catB) := countRej_assignIdxFrom _ 0
      _ = countRej catA + countRej catB := by
          unfold countRej
          rw [List.filter_append, List.length_append]

theorem rejected_rows_preserved_witness :
    countRej (assignIdx (wStackA ++ wStackB)) = countRej wStackA + countRej wStackB :=
  rejected_rows_preserved cbEx wStackA wStackB (assignIdx (wStackA ++ wStackB)) (by decide!)

/-- C4 amended: the merge write-back lands on the row sitting at position
`i` AFTER the partner's removal (`teststar` is a live Row view): that row
is the test row exactly when the partner was removed at a later position;
when the partner sat at an earlier position, the row that slid into
position `i` is read and written instead and the test row is left
untouched.  For the written row `rowi` and partner `m`, every column
obeys: a masked cell of `rowi` is replaced by `m`'s cell for that column,
and a present cell of `rowi` is never overwritten — with the positional
and shape columns excepted, which receive the newly computed combined
values (per-axis averaged center, combiner output for the shape); all
remaining record columns are also kept. -/
theorem merge_writeback_semantics (cb : CB) (m rowi : Row) (k : Nat)
    (hk : k < rowi.extra.length) (hl : m.extra.length = rowi.extra.length) :
    ((applyMerge cb m rowi).extra[k]? =
      if (rowi.extra[k]?.getD none).isSome then rowi.extra[k]? else m.extra[k]?) ∧
    (applyMerge cb m rowi).x_cen = (m.x_cen + rowi.x_cen) / 2 ∧
    (applyMerge cb m rowi).y_cen = (m.y_cen + rowi.y_cen) / 2 ∧
    (applyMerge cb m rowi).major_fwhm =
      (cb m.major_fwhm m.minor_fwhm m.position_angle
        rowi.major_fwhm rowi.minor_fwhm rowi.position_angle).1 ∧
    (applyMerge cb m rowi).minor_fwhm =
      (cb m.major_fwhm m.minor_fwhm m.position_angle
        rowi.major_fwhm rowi.minor_fwhm rowi.position_angle).2.1 ∧
    (applyMerge cb m rowi).position_angle =
      (cb m.major_fwhm m.minor_fwhm m.position_angle
        rowi.major_fwhm rowi.minor_fwhm rowi.position_angle).2.2 ∧
    (applyMerge cb m rowi).rejected = rowi.rejected ∧
    (applyMerge cb m rowi).rowName = rowi.rowName ∧
    (applyMerge cb m rowi).rowIdx = rowi.rowIdx ∧
    (applyMerge cb m rowi).rowIndex = rowi.rowIndex := by
  refine ⟨?_, rfl, rfl, rfl, rfl, rfl, rfl, rfl, rfl, rfl⟩
  have hk2 : k < m.extra.length := by omega
  obtain ⟨tv, htv⟩ : ∃ tv, rowi.extra[k]? = some tv := ⟨_, List.getElem?_eq_getElem hk⟩
  obtain ⟨pv, hpv⟩ : ∃ pv, m.extra[k]? = some pv := ⟨_, List.getElem?_eq_getElem hk2⟩
  show (fillExtras rowi.extra m.extra)[k]? = _
  unfold fillExtras
  rw [List.getElem?_zipWith, htv, hpv]
  cases tv with
  | none => simp [htv, hpv]
  | some v => simp [htv]

/-- Written row with one masked and one present extra cell. -/
def c4t : Row := { mkRow 0 0 0 0 with extra := [none, some 3] }

/-- Partner row with both extra cells present. -/
def c4m : Row := { mkRow 1 2 2 0 with extra := [some 7, some 9] }

theorem merge_writeback_semantics_witness :
    ((applyMerge cbEx c4m c4t).extra[0]? =
      if (c4t.extra[0]?.getD none).isSome then c4t.extra[0]? else c4m.extra[0]?) ∧
    (applyMerge cbEx c4m c4t).x_cen = (c4m.x_cen + c4t.x_cen) / 2 ∧
    (applyMerge cbEx c4m c4t).y_cen = (c4m.y_cen + c4t.y_cen) / 2 ∧
    (applyMerge cbEx c4m c4t).major_fwhm =
      (cbEx c4m.major_fwhm c4m.minor_fwhm c4m.position_angle
        c4t.major_fwhm c4t.minor_fwhm c4t.position_angle).1 ∧
    (applyMerge cbEx c4m c4t).minor_fwhm =
      (cbEx c4m.major_fwhm c4m.minor_fwhm c4m.position_angle
        c4t.major_fwhm c4t.minor_fwhm c4t.position_angle).2.1 ∧
    (applyMerge cbEx c4m c4t).position_angle =
      (cbEx c4m.major_fwhm c4m.minor_fwhm c4m.position_angle
        c4t.major_fwhm c4t.minor_fwhm c4t.position_angle).2.2 ∧
    (applyMerge cbEx c4m c4t).rejected = c4t.rejected ∧
    (applyMerge cbEx c4m c4t).rowName = c4t.rowName ∧
    (applyMerge cbEx c4m c4t).rowIdx = c4t.rowIdx ∧
    (applyMerge cbEx c4m c4t).rowIndex = c4t.rowIndex :=
  merge_writeback_semantics cbEx c4m c4t 0 (by decide) (by decide)

/-- Row builder with a one-column masked `extra` schema. -/
def mkRowE (idx : Int) (x y : ℚ) : Row := { mkRow idx x y 0 with extra := [none] }

/-- Partner-to-be at position 0, holding a present extra value. -/
def c4A : Row := { mkRow 0 0 0 0 with extra := [some 7] }

/-- Test row at position 11: within threshold of `c4A` (distance `1e-6`),
with a masked extra cell. -/
def c4B : Row := mkRowE 11 (1/1000000) 0

/-- 14-row stack staged so that the `c4A`–`c4B` merge fires only when
`c4B` is the test row: ten decoys at tiny negative `x` (large `|dy|`)
crowd `c4A`'s `|dx|` window with non-matching candidates, while in
`c4B`'s window `c4A` has the smallest `|dx|` and matches.  The partner
`c4A` then sits at position 0, BELOW the scan position 11. -/
def c4stack : List Row :=
  [c4A,
   mkRowE 1 (-(11/1000000000)) 1, mkRowE 2 (-(12/1000000000)) 2,
   mkRowE 3 (-(13/1000000000)) 3, mkRowE 4 (-(14/1000000000)) 4,
   mkRowE 5 (-(15/1000000000)) 5, mkRowE 6 (-(16/1000000000)) 6,
   mkRowE 7 (-(17/1000000000)) 7, mkRowE 8 (-(18/1000000000)) 8,
   mkRowE 9 (-(19/1000000000)) 9, mkRowE 10 (-(20/1000000000)) 10,
   c4B, mkRowE 12 10 0, mkRowE 13 20 0]

/-- C4 counterexample: the test row `c4B` (scanned at position 11, its
masked extra cell never filled, its center never averaged) survives the
merge with partner `c4A` COMPLETELY UNCHANGED, because `c4A` was removed
at position 0 < 11 and the live `teststar` view then reads and writes the
row that slid into position 11 — `mkRowE 12 10 0`, which receives the
averaged center `(0+10)/2 = 5`, the combined shape and `c4A`'s extra
value instead.  So the claim "when a test row is merged with its partner,
every masked value of the test row is replaced by the partner's value and
position/shape receive the combined values" is false as stated. -/
theorem merge_skips_shifted_test_row :
    (matcherStack cbEx c4stack).map (fun o => o.rows.map Row.rowIdx) =
      .ok [1, 2, 3, 4, 5, 6, 7, 8, 9, 10, 11, 12, 13] ∧
    (matcherStack cbEx c4stack).map LoopOut.visited = .ok (List.range 12) ∧
    (matcherStack cbEx c4stack).map
        (fun o => o.rows.filter (fun r => r.rowIdx == 11)) = .ok [c4B] ∧
    c4B.extra = [none] ∧ c4A.extra = [some 7] ∧
    (matcherStack cbEx c4stack).map
        (fun o => o.rows.filter (fun r => r.rowIdx == 12)) =
      .ok [{ rowIdx := 12, rowIndex := 12, x_cen := 5, y_cen := 0,
             major_fwhm := 2, minor_fwhm := 2, position_angle := 0,
             rejected := 0, rowName := "s", extra := [some 7] }] := by decide!

theorem assignIdxFrom_length :
    ∀ (l : List Row) (n : Int), (assignIdxFrom n l).length = l.length := by
  intro l
  induction l with
  | nil => intro n; rfl
  | cons a t ih => intro n; rw [assignIdxFrom, List.length_cons, List.length_cons, ih]

theorem rejectedPositionsFrom_ge :
    ∀ (l : List Row) (n m : Nat), m ∈ rejectedPositionsFrom n l → n ≤ m := by
  intro l
  induction l with
  | nil => intro n m h; simp [rejectedPositionsFrom] at h
  | cons a t ih =>
    intro n m h
    rw [rejectedPositionsFrom] at h
    by_cases ha : (a.rejected == 1)
    · rw [if_pos ha] at h
      rcases List.mem_cons.mp h with h0 | h1
      · omega
      · have := ih (n + 1) m h1; omega
    · rw [if_neg ha] at h
      have := ih (n + 1) m h; omega

/-- The number of candidate rows built for a non-rejected test row drawn
from the stack: strictly fewer than the non-rejected row count, since the
test row itself is filtered out by `_index`. -/
theorem candidatesFor_length_lt {stack : List Row} {test : Row}
    (hmem : test ∈ stack) (hrej : test.rejected = 0) :
    (candidatesFor stack test).length < countNonRej stack := by
  unfold candidatesFor
  rw [List.length_map]
  have htest1 : test ∈ stack.filter (fun r => r.rejected == 0) :=
    List.mem_filter.mpr ⟨hmem, by simp [hrej]⟩
  exact lt_of_lt_of_le
    (List.length_filter_lt_length_iff_exists.mpr ⟨test, htest1, by simp⟩)
    (le_refl _)

/-- One unfolding of the scan: a non-rejected, non-final test row whose
partner selection raises propagates `IndexError` out of the loop untouched. -/
theorem matcherLoop_step_error (cb : CB) (rej : List Nat) (fuel i : Nat)
    (stack : List Row) (visited : List Nat) (test : Row)
    (hbr : (i : Int) ≠ (stack.length : Int) - 1)
    (hrej : i ∉ rej)
    (hti : stack[i]? = some test)
    (hsp : selectPartner (candidatesFor stack test) = .error .indexOutOfBounds) :
    matcherLoop cb rej (fuel + 1) i stack visited = .error .indexOutOfBounds := by
  rw [matcherLoop, if_neg hbr, if_neg hrej, hti]
  dsimp only
  rw [hsp]

/-- C5: if, when a non-rejected test row is scanned (here: the stack's
first row with fewer than 10 non-rejected candidates available), the merge
engine fails with an index-out-of-bounds error; the error is not guarded
against, caught, or translated. -/
theorem insufficient_candidates_error (cb : CB) (r0 : Row) (rest : List Row)
    (h0 : r0.rejected = 0) (hne : rest ≠ []) (hcount : countNonRej (r0 :: rest) < 11) :
    matcherStack cb (r0 :: rest) = .error .indexOutOfBounds := by
  have hlen : (assignIdx (r0 :: rest)).length = rest.length + 1 := by
    rw [assignIdx, assignIdxFrom_length, List.length_cons]
  have hrestpos : 0 < rest.length := List.length_pos.mpr hne
  have hcons : assignIdx (r0 :: rest) =
      { r0 with rowIndex := 0 } :: assignIdxFrom 1 rest := rfl
  have hrej0 : ({ r0 with rowIndex := 0 } : Row).rejected = 0 := h0
  unfold matcherStack
  rw [show (assignIdx (r0 :: rest)).length + 2 =
      ((assignIdx (r0 :: rest)).length + 1) + 1 from rfl]
  apply matcherLoop_step_error cb _ _ 0 _ [] ({ r0 with rowIndex := 0 })
  · rw [hlen]; omega
  · intro hmem
    rw [hcons, rejectedPositions, rejectedPositionsFrom] at hmem
    simp only [hrej0] at hmem
    rw [if_neg (by simp [h0])] at hmem
    have := rejectedPositionsFrom_ge (assignIdxFrom 1 rest) 1 0 hmem
    omega
  · rw [hcons]; exact List.getElem?_cons_zero
  · have hmemhd : ({ r0 with rowIndex := 0 } : Row) ∈ assignIdx (r0 :: rest) := by
      rw [hcons]; exact List.mem_cons_self _ _
    have hlt := candidatesFor_length_lt hmemhd hrej0
    have hcnr : countNonRej (assignIdx (r0 :: rest)) = countNonRej (r0 :: rest) :=
      countNonRej_assignIdxFrom _ 0
    simp only [selectPartner]
    rw [if_pos (by rw [sortCands, List.length_insertionSort]; omega)]

/-- Two far-apart non-rejected rows: far fewer than the 10-candidate
window requires. -/
theorem insufficient_candidates_error_witness :
    matcherStack cbEx [mkRow 0 0 0 0, mkRow 1 50 0 0] = .error .indexOutOfBounds :=
  insufficient_candidates_error cbEx (mkRow 0 0 0 0) [mkRow 1 50 0 0]
    (by decide) (by decide) (by decide)

/-- Physical dimensions used by the callers of `check_units`. -/
inductive Dim where
  | angle
  | frequency
  | dimensionless
deriving DecidableEq, Repr

/-- An astropy unit: a dimension plus a scale relative to the dimension's
base unit; `u.is_equivalent(v)` is dimension equality. -/
structure AstroUnit where
  dim : Dim
  scale : ℚ
deriving DecidableEq, Repr

def deg : AstroUnit := { dim := .angle, scale := 1 }

def GHz : AstroUnit := { dim := .frequency, scale := 1 }

/-- `x` expressed in `fromU`, converted to `toU` (same dimension). -/
def convertVal (fromU toU : AstroUnit) (x : ℚ) : ℚ := x * fromU.scale / toU.scale

def isEquivalentU (a b : AstroUnit) : Bool := a.dim == b.dim

/-- `astropy.table.Column`: named, optionally unit-tagged, plain cells. -/
structure ColumnV where
  name : String
  unit : Option AstroUnit
  data : List ℚ
deriving DecidableEq, Repr

/-- `astropy.table.MaskedColumn`: named, optionally unit-tagged, maskable
cells. -/
structure MColumnV where
  name : String
  unit : Option AstroUnit
  data : List (Option ℚ)
deriving DecidableEq, Repr

/-- An `astropy.units.Quantity` (carries a `unit` attribute). -/
structure QuantityV where
  val : ℚ
  unit : AstroUnit
deriving DecidableEq, Repr

/-- The runtime-typed argument `check_units` dispatches on: `Column`,
`MaskedColumn`, a unit-carrying quantity, or a bare float (no `unit`
attribute). -/
inductive PyVal where
  | col (c : ColumnV)
  | mcol (c : MColumnV)
  | quant (q : QuantityV)
  | flt (x : ℚ)
deriving DecidableEq, Repr

/-- `unit.is_equivalent(quantity)` for the non-column branches: a bare
float is coerced by astropy to a dimensionless unit, so it is equivalent
only to a dimensionless target. -/
def isEquivalentToVal (u : AstroUnit) : PyVal → Bool
  | .quant q => u.dim == q.unit.dim
  | .flt _ => u.dim == Dim.dimensionless
  | _ => false

/-- Result of a `check_units` call: the returned value, the warnings
emitted during the call, and the post-call state of the caller's argument
object (the unit assignment `quantity.unit = unit` happens in place). -/
structure CheckOut where
  result : PyVal
  warns : List String
  arg : PyVal
deriving DecidableEq, Repr

/-- `"Assuming quantity is in {}".format(unit)` (unit interpolation elided). -/
def assumeMsg : String := "Assuming quantity is in the target unit"

def nonEquivMsg : String := "Non-equivalent unit already exists."

/-- `check_units` (lines 25–56 of `utils.py`).  Branches on the runtime
type; for a `Column`/`MaskedColumn` with no unit it MUTATES the caller's
column (assigns the target unit), warns, and returns a copy.  In the bare
value branch, the `warnings.warn` on line 56 sits AFTER the `return` and
never executes, so a unitless float comes back with the unit attached and
NO warning.  `quantity.to(unit)` on a bare float (reachable only for a
dimensionless target) raises `AttributeError`. -/
def check_units (quantity : PyVal) (unit : AstroUnit) : Except String CheckOut :=
  match quantity with
  | .col c =>
    match c.unit with
    | none =>
      .ok { result := .col { c with unit := some unit },
            warns := [assumeMsg],
            arg := .col { c with unit := some unit } }
    | some cu =>
      if isEquivalentU unit cu then
        .ok { result := .col { name := c.name, unit := some unit,
                               data := c.data.map (convertVal cu unit) },
              warns := [], arg := .col c }
      else
        .ok { result := .col c, warns := [nonEquivMsg], arg := .col c }
  | .mcol c =>
    match c.unit with
    | none =>
      .ok { result := .mcol { c with unit := some unit },
            warns := [assumeMsg],
            arg := .mcol { c with unit := some unit } }
    | some cu =>
      if isEquivalentU unit cu then
        .ok { result := .mcol { name := c.name, unit := some unit,
                                data := c.data.map (Option.map (convertVal cu unit)) },
              warns := [], arg := .mcol c }
      else
        .ok { result := .mcol c, warns := [nonEquivMsg], arg := .mcol c }
  | .quant q =>
    if isEquivalentToVal unit (.quant q) then
      .ok { result := .quant { val := convertVal q.unit unit q.val, unit := unit },
            warns := [], arg := quantity }
    else
      .ok { result := quantity, warns := [nonEquivMsg], arg := quantity }
  | .flt x =>
    if isEquivalentToVal unit (.flt x) then
      .error "AttributeError"
    else
      .ok { result := .quant { val := x, unit := unit }, warns := [], arg := quantity }

/-- C6: evaluating `check_units` at the plain unitless float `5.0` with
target unit degrees: the value comes back with the unit attached (`5.0
deg`) but NO warning is issued — the `warnings.warn` on line 56 is dead
code placed after the `return`, so the claim's required warning never
happens. -/
theorem check_units_float_no_warning :
    check_units (.flt 5) deg =
      .ok { result := .quant { val := 5, unit := deg }, warns := [], arg := .flt 5 } := by
  decide!

/-- C10: a `Column` or `MaskedColumn` argument carrying no unit is mutated
in place — the target unit is assigned to the caller's object before a
copy is returned; the argument does not remain unchanged, and all of its
other fields (name, data) are unchanged. -/
theorem check_units_mutates_unitless_column (c : ColumnV) (mc : MColumnV)
    (u : AstroUnit) (hc : c.unit = none) (hmc : mc.unit = none) :
    (check_units (.col c) u =
      .ok { result := .col { c with unit := some u }, warns := [assumeMsg],
            arg := .col { c with unit := some u } } ∧
      PyVal.col { c with unit := some u } ≠ .col c) ∧
    (check_units (.mcol mc) u =
      .ok { result := .mcol { mc with unit := some u }, warns := [assumeMsg],
            arg := .mcol { mc with unit := some u } } ∧
      PyVal.mcol { mc with unit := some u } ≠ .mcol mc) := by
  refine ⟨⟨?_, ?_⟩, ⟨?_, ?_⟩⟩
  · simp only [check_units]
    rw [hc]
  · intro h
    have h2 : ({ c with unit := some u } : ColumnV) = c := by
      injection h
    have h3 : some u = c.unit := congrArg ColumnV.unit h2
    rw [hc] at h3
    exact Option.noConfusion h3
  · simp only [check_units]
    rw [hmc]
  · intro h
    have h2 : ({ mc with unit := some u } : MColumnV) = mc := by
      injection h
    have h3 : some u = mc.unit := congrArg MColumnV.unit h2
    rw [hmc] at h3
    exact Option.noConfusion h3

/-- Concrete unitless `Column`. -/
def c10col : ColumnV := { name := "x", unit := none, data := [1, 2] }

/-- Concrete unitless `MaskedColumn`. -/
def c10mcol : MColumnV := { name := "y", unit := none, data := [some 1, none] }

theorem check_units_mutates_witness :
    (check_units (.col c10col) deg =
      .ok { result := .col { c10col with unit := some deg }, warns := [assumeMsg],
            arg := .col { c10col with unit := some deg } } ∧
      PyVal.col { c10col with unit := some deg } ≠ .col c10col) ∧
    (check_units (.mcol c10mcol) deg =
      .ok { result := .mcol { c10mcol with unit := some deg }, warns := [assumeMsg],
            arg := .mcol { c10mcol with unit := some deg } } ∧
      PyVal.mcol { c10mcol with unit := some deg } ≠ .mcol c10mcol) :=
  check_units_mutates_unitless_column c10col c10mcol deg rfl rfl

/-- One output line of `save_regions`:
`ellipse(x, y, a, b, pa) # text=NAME`, captured structurally (the five
numeric format fields and the interpolated name). -/
structure RegionLine where
  x : ℚ
  y : ℚ
  a : ℚ
  b : ℚ
  pa : ℚ
  name : String
deriving DecidableEq, Repr

/-- Everything `save_regions` writes: the (possibly corrected) path, the
warnings, the coordinate-frame header line and the ellipse lines. -/
structure SaveOut where
  path : String
  warns : List String
  header : String
  lines : List RegionLine
deriving DecidableEq, Repr

def extWarnMsg : String := "Invalid or missing file extension. Self-correcting."

/-- `save_regions` (lines 81–108): if the last dot-component of `outfile`
is not `reg`, warn and rewrite the path to its FIRST dot-component plus
`.reg`; drop rejected rows when `skip_rejects`; then write the `icrs`
header and one ellipse line per remaining row.  The axis slots receive
`row['major_fwhm']` and `row['minor_fwhm']` AS-IS (the format string holds
no halving). -/
def save_regions (catalog : List Row) (outfile : String) (skip_rejects : Bool) :
    SaveOut :=
  let fixNeeded := ((outfile.splitOn ".").getLastD "") != "reg"
  { path := if fixNeeded then ((outfile.splitOn ".").headD "") ++ ".reg" else outfile
    warns := if fixNeeded then [extWarnMsg] else []
    header := "icrs"
    lines := (if skip_rejects then catalog.filter (fun r => r.rejected == 0)
              else catalog).map (fun r =>
      { x := r.x_cen, y := r.y_cen, a := r.major_fwhm, b := r.minor_fwhm,
        pa := r.position_angle, name := r.rowName }) }

/-- A non-rejected row with distinct shape values. -/
def c7row : Row :=
  { rowIdx := 0, rowIndex := 0, x_cen := 10, y_cen := 11, major_fwhm := 2,
    minor_fwhm := 3, position_angle := 4, rejected := 0, rowName := "n", extra := [] }

/-- C7 counterexample: the written axis values are the row's `major_fwhm`
and `minor_fwhm` themselves (2 and 3) — NOT the halves (1 and 3/2) the
claim requires. -/
theorem save_regions_axes_not_halved :
    (save_regions [c7row] "out.reg" true).lines =
      [{ x := 10, y := 11, a := 2, b := 3, pa := 4, name := "n" }] ∧
    (save_regions [c7row] "out.reg" true).lines ≠
      [{ x := 10, y := 11, a := 2/2, b := 3/2, pa := 4, name := "n" }] := by
  decide!

/-- C7 amended: `save_regions` writes the header `icrs` and one line per
non-rejected row of the form
`ellipse(x_cen, y_cen, major_fwhm, minor_fwhm, position_angle) # text=name`
(axes NOT halved), and a path whose extension is not `.reg` is rewritten
to its first dot-component plus `.reg`, with a warning. -/
theorem save_regions_output (catalog : List Row) (f : String)
    (hext : ((f.splitOn ".").getLastD "") ≠ "reg") :
    (save_regions catalog f true).header = "icrs" ∧
    (save_regions catalog f true).lines =
      (catalog.filter (fun r => r.rejected == 0)).map (fun r =>
        { x := r.x_cen, y := r.y_cen, a := r.major_fwhm, b := r.minor_fwhm,
          pa := r.position_angle, name := r.rowName }) ∧
    (save_regions catalog f true).path = ((f.splitOn ".").headD "") ++ ".reg" ∧
    (save_regions catalog f true).warns = [extWarnMsg] := by
  have hfix : (((f.splitOn ".").getLastD "") != "reg") = true := by
    simpa using hext
  unfold save_regions
  simp only [hfix, if_true]
  simp

theorem save_regions_output_witness :
    (save_regions [c7row] "a.txt" true).header = "icrs" ∧
    (save_regions [c7row] "a.txt" true).lines =
      (([c7row] : List Row).filter (fun r => r.rejected == 0)).map (fun r =>
        { x := r.x_cen, y := r.y_cen, a := r.major_fwhm, b := r.minor_fwhm,
          pa := r.position_angle, name := r.rowName }) ∧
    (save_regions [c7row] "a.txt" true).path =
      ((("a.txt").splitOn ".").headD "") ++ ".reg" ∧
    (save_regions [c7row] "a.txt" true).warns = [extWarnMsg] :=
  save_regions_output [c7row] "a.txt" (by decide!)

/-- An astropy table as the frequency splitter sees it: ordered
(column name, masked data) pairs. -/
structure TableV where
  cols : List (String × List (Option ℚ))
deriving DecidableEq, Repr

def TableV.colnames (t : TableV) : List String := t.cols.map Prod.fst

/-- Python `needle in haystack` on strings (for the non-empty column-name
needles used here): `splitOn` yields at least two pieces iff the needle
occurs. -/
def strContains (s pat : String) : Bool := (s.splitOn pat).length ≥ 2

/-- The `freq` argument of `match_external_cat`: a numeric frequency
(`type(freq) is float or type(freq) is int`), a column name
(`type(freq) is str`), or absent. -/
inductive FreqSpec where
  | num (x : ℚ)
  | colName (s : String)
  | missing
deriving DecidableEq, Repr

/-- `'{:.0f}'.format(np.round(f_GHz)).replace(' ', '')` — e.g. `93GHz`. -/
def freqIdOf (f : ℚ) : String := toString (round f) ++ "GHz"

/-- The `new_cat` built (lines 245–261) in the numeric branch: for each
catalog column, renamed copies for the flux-sum / flux-peak / error
columns whose names contain the given needles. -/
def buildRenamed (cat : TableV) (shape : String) (freq_id : String)
    (flux_sum flux_peak err : Option String) : TableV :=
  { cols := cat.cols.flatMap (fun c =>
      (match flux_sum with
       | some fs =>
         if strContains c.1 fs then [(freq_id ++ "_" ++ shape ++ "_sum", c.2)] else []
       | none => []) ++
      (match flux_peak with
       | some fp =>
         if strContains c.1 fp then [(freq_id ++ "_" ++ shape ++ "_peak", c.2)] else []
       | none => []) ++
      (match err with
       | some e =>
         if strContains c.1 e then [(freq_id ++ "_annulus_rms", c.2)] else []
       | none => [])) }

/-- `match_external_cat` (lines 225–295).  The numeric-frequency branch
builds `new_cat` with renamed columns but line 263 appends the ORIGINAL
`cat` to the returned list — `new_cat` is discarded.  The string branch
reads the undefined global `freq_colname` and raises `NameError` before
producing anything.  With no frequency it warns and returns the original
catalog.  Returns (catalog list, warnings). -/
def match_external_cat (cat : TableV) (shape : String) (freq : FreqSpec)
    (flux_sum flux_peak err : Option String) :
    Except String (List TableV × List String) :=
  match freq with
  | .num f =>
    let _new_cat := buildRenamed cat shape (freqIdOf f) flux_sum flux_peak err
    .ok ([cat], [])
  | .colName _ => .error "NameError: freq_colname is not defined"
  | .missing => .ok ([cat], ["Frequency not specified. Returning original catalog."])

/-- External catalog with one flux-sum column. -/
def c8cat : TableV := { cols := [("flux_sum", [some 1, some 2])] }

/-- C8: with a numeric frequency specifier, `match_external_cat` returns
the ORIGINAL catalog with its original column names — the renamed table
(whose column would be `93GHz_ellipse_sum`) is built and then discarded,
so the returned sub-tables do NOT carry the renamed columns the claim
describes. -/
theorem match_external_cat_returns_original :
    match_external_cat c8cat "ellipse" (.num 93) (some "sum") none none =
      .ok ([c8cat], []) ∧
    (buildRenamed c8cat "ellipse" (freqIdOf 93) (some "sum") none none).colnames =
      ["93GHz_ellipse_sum"] ∧
    c8cat.colnames = ["flux_sum"] ∧
    ("93GHz_ellipse_sum" : String) ∉ c8cat.colnames := by decide!
